import Mathlib

/-!
Shallow embedding of the bulk-download orchestration layer of MediaMiner
(`src/utils/bulk_downloader.py`, `src/utils/download_scheduler.py`,
`src/utils/enhanced_downloader.py`), together with theorems settling the
frozen claims about its specification.

Python dictionaries holding heterogeneous option values are modelled as
association lists over a small value type; Python exceptions are modelled
with `Except`; wall-clock times are rationals and request counters are
integers (Python ints).
-/

namespace MediaMiner

/-- A Python value as stored in an options dictionary. -/
inductive PyVal where
  | int (n : ℤ)
  | str (s : String)
  | bool (b : Bool)
  | none
  deriving DecidableEq, Repr

/-- An options bag: a Python dict modelled as an association list
(insertion order preserved, keys unique by construction of the
operations below). -/
abbrev Options := List (String × PyVal)

/-- Python dict assignment `d[k] = v`: replace the value in place when the
key is present, append otherwise. -/
def dictSet (d : Options) (k : String) (v : PyVal) : Options :=
  if d.any (fun p => p.1 == k) then
    d.map (fun p => if p.1 == k then (k, v) else p)
  else d ++ [(k, v)]

/-- Python dict read `d.get(k)`: the first value stored under `k`. -/
def dictGet (d : Options) (k : String) : Option PyVal :=
  (d.find? (fun p => p.1 == k)).map Prod.snd

/-- Outcome of one invocation of an external downloader: it either returned
a result dict whose `success` key reads as the given boolean, or raised. -/
inductive DlOutcome where
  | result (success : Bool)
  | raise
  deriving DecidableEq, Repr

/-- The `BulkDownloader.statistics` dict. -/
structure Stats where
  total_requested : ℕ
  total_completed : ℕ
  total_failed : ℕ
  bytes_downloaded : ℕ
  deriving DecidableEq, Repr

/-- Statistics as initialised in `BulkDownloader.__init__`. -/
def Stats.init : Stats := ⟨0, 0, 0, 0⟩

/-- Record of one `downloader.download(target, options, ...)` invocation:
the target and the options dict the downloader received. -/
structure CallRecord where
  target : String
  options : Options
  deriving DecidableEq, Repr

/-- Result dict returned by a bulk helper (only the fields the claims
need: the `success` flag and presence of an `error` key). -/
structure BulkResult where
  success : Bool
  error : Option String
  deriving DecidableEq, Repr

/-- Embedding of `BulkDownloader.bulk_download_subreddit`: copies the
caller's options, overrides `limit` to `0`, invokes
`RedditDownloader.download` (outcome given by `outcome`, reported file
count by `files`), and updates the statistics.  When the invocation
raises, the handler increments only `total_failed`; `total_requested` is
incremented only after a non-raising invocation. -/
def bulkDownloadSubreddit (stats : Stats) (subreddit : String)
    (options : Options) (outcome : DlOutcome) (files : ℕ) :
    Stats × BulkResult × CallRecord :=
  let bulkOptions := dictSet options "limit" (PyVal.int 0)
  let call : CallRecord := ⟨subreddit, bulkOptions⟩
  match outcome with
  | .raise =>
      ({ stats with total_failed := stats.total_failed + 1 },
       ⟨false, some "exception"⟩, call)
  | .result true =>
      ({ stats with
          total_requested := stats.total_requested + 1,
          total_completed := stats.total_completed + 1,
          bytes_downloaded := stats.bytes_downloaded + files * 1024 * 1024 },
       ⟨true, Option.none⟩, call)
  | .result false =>
      ({ stats with
          total_requested := stats.total_requested + 1,
          total_failed := stats.total_failed + 1 },
       ⟨false, Option.none⟩, call)

/-- Platforms registered in the `downloader_map` of
`bulk_download_multiple_urls`. -/
def downloaderMapPlatforms : List String :=
  ["youtube", "tiktok", "instagram", "reddit", "twitter",
   "redgifs", "xvideos", "pornhub", "coomer", "kemono"]

/-- Result of `bulk_download_multiple_urls`. -/
structure MultiResult where
  success : Bool
  completed : ℕ
  failed : ℕ
  error : Option String
  deriving DecidableEq, Repr

/-- Embedding of `BulkDownloader.bulk_download_multiple_urls`: if the
platform has no entry in `downloader_map` the whole call returns an
unsupported-platform failure before any download (and before any
statistics update).  Otherwise every URL is submitted to
`download_single_url`, which catches every exception of the downloader
and turns it into a failure result, so each URL counts exactly once as
completed or failed; the options dict is passed to each downloader
verbatim.  Counts are order-independent, so the `as_completed` iteration
is modelled in list order. -/
def bulkDownloadMultipleUrls (stats : Stats) (urls : List String)
    (platform : String) (options : Options) (oracle : String → DlOutcome) :
    Stats × MultiResult × List CallRecord :=
  if platform ∈ downloaderMapPlatforms then
    let completed := urls.countP (fun u => oracle u == DlOutcome.result true)
    let failed := urls.countP (fun u => !(oracle u == DlOutcome.result true))
    ({ stats with
        total_requested := stats.total_requested + urls.length,
        total_completed := stats.total_completed + completed,
        total_failed := stats.total_failed + failed },
     ⟨true, completed, failed, Option.none⟩,
     urls.map (fun u => ⟨u, options⟩))
  else
    (stats, ⟨false, 0, 0, some ("Unsupported platform: " ++ platform)⟩, [])

/-- Python `s.startswith(pre)`. -/
def pyStartsWith (s pre : String) : Bool :=
  pre.data.isPrefixOf s.data

/-- Embedding of `BulkDownloader.bulk_download_coomer_user` restricted to
what the claims need: the options the downloader receives (`limit`
overridden to `0`) and the fact that the helper reads the caller's
`service` key to build the target URL when the username is not an http
URL. -/
def bulkDownloadCoomerUserCall (username : String) (options : Options) :
    CallRecord :=
  let bulkOptions := dictSet options "limit" (PyVal.int 0)
  let target :=
    if pyStartsWith username "http" then username
    else
      let service :=
        match dictGet options "service" with
        | some (PyVal.str s) => s
        | _ => "onlyfans"
      "https://coomer.su/" ++ service ++ "/user/" ++ username
  ⟨target, bulkOptions⟩

/-!
Rate limiter model (`src/utils/download_scheduler.py`).

A per-platform limiter is a Python dict.  Two distinct key schemas occur
in the source: `schedule_download` initialises
`{last_request, request_count, window_start, max_requests_per_minute}`,
while `_check_rate_limit` initialises
`{last_request, requests_this_minute, minute_start}`.  Reads of a missing
key raise `KeyError`, which each function's blanket handler catches.  The
dict is modelled as a structure with one `Option` field per key that ever
occurs; counters are Python ints (`ℤ`), timestamps rationals (`ℚ`). -/

/-- A `self.rate_limiters[platform]` dict. -/
structure LimiterDict where
  last_request : Option ℚ
  request_count : Option ℤ
  window_start : Option ℚ
  max_requests_per_minute : Option ℤ
  requests_this_minute : Option ℤ
  minute_start : Option ℚ
  deriving DecidableEq, Repr

/-- Limiter entry as initialised by `schedule_download` (keys
`last_request`, `request_count`, `window_start`,
`max_requests_per_minute`). -/
def LimiterDict.initSchedule (now : ℚ) (maxPerMinute : ℤ) : LimiterDict :=
  ⟨some 0, some 0, some now, some maxPerMinute, Option.none, Option.none⟩

/-- Limiter entry as initialised by `_check_rate_limit` (keys
`last_request`, `requests_this_minute`, `minute_start`). -/
def LimiterDict.initCheck (now : ℚ) : LimiterDict :=
  ⟨some 0, Option.none, Option.none, Option.none, some 0, some now⟩

/-- Embedding of `DownloadScheduler._should_rate_limit(platform)` at time
`now`, acting on the limiter entry for that platform (`Option.none` when
`platform not in self.rate_limiters`).  Returns the boolean result
(`true` means "rate limit this request", so `false` admits a dispatch in
`execute_downloads`) and the updated entry.  The `except` handler
returns `false`, keeping whatever mutations already happened. -/
def shouldRateLimit (lim : Option LimiterDict) (now : ℚ) :
    Bool × Option LimiterDict :=
  match lim with
  | Option.none => (false, Option.none)
  | some l =>
    match l.window_start with
    | Option.none => (false, some l)
    | some ws =>
      let l1 := if now - ws ≥ 60 then
          { l with request_count := some 0, window_start := some now }
        else l
      match l1.request_count, l1.max_requests_per_minute with
      | some rc, some mx => (decide (rc ≥ mx), some l1)
      | _, _ => (false, some l1)

/-- Embedding of `DownloadScheduler._update_rate_limiter(platform)` at
time `now`: when the platform has an entry, increment `request_count` and
set `last_request`; a `KeyError` on a missing `request_count` is caught
before `last_request` is written. -/
def updateRateLimiter (lim : Option LimiterDict) (now : ℚ) :
    Option LimiterDict :=
  match lim with
  | Option.none => Option.none
  | some l =>
    match l.request_count with
    | Option.none => some l
    | some rc =>
        some { l with request_count := some (rc + 1), last_request := some now }

/-- One entry of the hard-coded `limits` table of `_check_rate_limit`. -/
structure PlatformLimits where
  requests_per_minute : ℤ
  min_delay : ℚ
  deriving DecidableEq, Repr

/-- The `limits.get(platform, {'requests_per_minute': 30, 'min_delay': 1})`
lookup of `_check_rate_limit`. -/
def platformLimits (platform : String) : PlatformLimits :=
  if platform = "youtube" then ⟨30, 1⟩
  else if platform = "tiktok" then ⟨20, 2⟩
  else if platform = "instagram" then ⟨15, 3⟩
  else if platform = "reddit" then ⟨60, 1/2⟩
  else if platform = "twitter" then ⟨25, 3/2⟩
  else ⟨30, 1⟩

/-- Embedding of the body of `DownloadScheduler._check_rate_limit` with
the platform-limits row abstracted (the source reads it from the
hard-coded `limits` table; see `checkRateLimit`).  Acts on the limiter
entry at time `now`; returns the admit decision and the updated entry.
A `KeyError` (missing `minute_start`, `requests_this_minute` or
`last_request`) reaches the `except` handler, which returns `true`
("allow download on error") with the mutations made so far. -/
def checkRateLimitWith (lims : PlatformLimits) (lim : Option LimiterDict)
    (now : ℚ) : Bool × Option LimiterDict :=
  let l0 : LimiterDict :=
    match lim with
    | Option.none => LimiterDict.initCheck now
    | some l => l
  match l0.minute_start with
  | Option.none => (true, some l0)
  | some ms =>
    let l1 := if now - ms ≥ 60 then
        { l0 with requests_this_minute := some 0, minute_start := some now }
      else l0
    match l1.requests_this_minute with
    | Option.none => (true, some l1)
    | some rtm =>
      if rtm ≥ lims.requests_per_minute then (false, some l1)
      else
        match l1.last_request with
        | Option.none => (true, some l1)
        | some lr =>
          if now - lr < lims.min_delay then (false, some l1)
          else
            (true, some { l1 with last_request := some now,
                                  requests_this_minute := some (rtm + 1) })

/-- Embedding of `DownloadScheduler._check_rate_limit(platform)`. -/
def checkRateLimit (platform : String) (lim : Option LimiterDict)
    (now : ℚ) : Bool × Option LimiterDict :=
  checkRateLimitWith (platformLimits platform) lim now

/-- The reset-only part of `_should_rate_limit`: what the limiter entry
looks like after the window-reset statement, with no other mutation. -/
def resetShould (l : LimiterDict) (now : ℚ) : LimiterDict :=
  match l.window_start with
  | Option.none => l
  | some ws =>
    if now - ws ≥ 60 then
      { l with request_count := some 0, window_start := some now }
    else l

/-- Run `checkRateLimitWith` over a list of call times, returning the
list of times at which a dispatch was admitted together with the final
limiter entry. -/
def admittedTimes (lims : PlatformLimits) :
    Option LimiterDict → List ℚ → List ℚ × Option LimiterDict
  | lim, [] => ([], lim)
  | lim, t :: ts =>
    let r := checkRateLimitWith lims lim t
    let rest := admittedTimes lims r.2 ts
    (if r.1 then t :: rest.1 else rest.1, rest.2)

/-!
Priority queue model.  `schedule_download` does
`self.download_queue.put((priority, download_task))` on a
`queue.PriorityQueue`, which stores entries in a binary heap via
`heapq.heappush` / `heapq.heappop`.  Heap entries are `(int, dict)`
tuples: Python tuple comparison first tests the priorities for equality
and compares them with `<` when they differ; when they are equal it falls
through to the task dicts, where `dict == dict` is defined but
`dict < dict` raises `TypeError`. -/

/-- A Python exception escaping a modelled operation. -/
inductive PyErr where
  | typeError
  | indexError
  | fuelOut
  deriving DecidableEq, Repr

/-- The relevant fields of a `download_task` dict built by
`schedule_download`.  Two tasks are dict-equal exactly when all their
fields agree. -/
structure TaskDict where
  id : String
  url : String
  platform : String
  deriving DecidableEq, Repr

/-- A heap entry `(priority, download_task)`. -/
abbrev Entry := ℤ × TaskDict

/-- Python `<` on two heap entries (tuple comparison as described above):
defined when the priorities differ or the task dicts are equal, and a
`TypeError` otherwise. -/
def entryLt (a b : Entry) : Except PyErr Bool :=
  if a.1 = b.1 then
    (if a.2 = b.2 then .ok false else .error .typeError)
  else .ok (decide (a.1 < b.1))

/-- List read `heap[i]`. -/
def lget : List Entry → ℕ → Except PyErr Entry
  | [], _ => .error .indexError
  | x :: _, 0 => .ok x
  | _ :: xs, n + 1 => lget xs n

/-- The while loop of `heapq._siftdown`: bubble `newitem`'s slot up while
it compares `<` its parent; returns the heap with parents moved down and
the final position.  `fuel` bounds the iterations (`pos` strictly
decreases, so `pos + 1` is always enough). -/
def siftdownLoop (startpos : ℕ) (newitem : Entry) :
    List Entry → ℕ → ℕ → Except PyErr (List Entry × ℕ)
  | _, _, 0 => .error .fuelOut
  | heap, pos, fuel + 1 =>
    if pos > startpos then do
      let parentpos := (pos - 1) / 2
      let parent ← lget heap parentpos
      let lt ← entryLt newitem parent
      if lt then
        siftdownLoop startpos newitem (heap.set pos parent) parentpos fuel
      else .ok (heap, pos)
    else .ok (heap, pos)

/-- Embedding of `heapq._siftdown(heap, startpos, pos)`. -/
def siftdown (heap : List Entry) (startpos pos : ℕ) :
    Except PyErr (List Entry) := do
  let newitem ← lget heap pos
  let r ← siftdownLoop startpos newitem heap pos (pos + 1)
  .ok (r.1.set r.2 newitem)

/-- The while loop of `heapq._siftup`: move the smaller child up until a
leaf is reached; returns the heap and the final position.  `fuel` bounds
the iterations (`childpos` at least doubles, so the heap length is always
enough). -/
def siftupLoop (endpos : ℕ) :
    List Entry → ℕ → ℕ → Except PyErr (List Entry × ℕ)
  | heap, pos, 0 =>
    if 2 * pos + 1 < endpos then .error .fuelOut else .ok (heap, pos)
  | heap, pos, fuel + 1 =>
    let childpos := 2 * pos + 1
    if childpos < endpos then do
      let rightpos := childpos + 1
      let childpos ←
        if rightpos < endpos then do
          let c ← lget heap childpos
          let r ← lget heap rightpos
          let lt ← entryLt c r
          pure (if lt then childpos else rightpos)
        else pure childpos
      let child ← lget heap childpos
      siftupLoop endpos (heap.set pos child) childpos fuel
    else .ok (heap, pos)

/-- Embedding of `heapq._siftup(heap, pos)`. -/
def siftup (heap : List Entry) (pos : ℕ) : Except PyErr (List Entry) := do
  let newitem ← lget heap pos
  let r ← siftupLoop heap.length heap pos heap.length
  let heap1 := r.1.set r.2 newitem
  siftdown heap1 pos r.2

/-- Embedding of `heapq.heappush` (what `PriorityQueue.put` calls):
append the item and sift it down towards the root. -/
def heappush (heap : List Entry) (item : Entry) :
    Except PyErr (List Entry) :=
  siftdown (heap ++ [item]) 0 heap.length

/-- Python `heap.pop()`: remove and return the last element. -/
def popLast : List Entry → Option (Entry × List Entry)
  | [] => Option.none
  | [x] => some (x, [])
  | x :: y :: xs =>
    match popLast (y :: xs) with
    | some (z, zs) => some (z, x :: zs)
    | Option.none => Option.none

/-- Embedding of `heapq.heappop` (what `PriorityQueue.get` calls): pop the
last element; if the heap is still nonempty, replace the root with it and
sift up.  Returns the popped minimum and the remaining heap. -/
def heappop (heap : List Entry) : Except PyErr (Entry × List Entry) :=
  match popLast heap with
  | Option.none => .error .indexError
  | some (lastelt, rest) =>
    match rest with
    | [] => .ok (lastelt, [])
    | r0 :: rrest => do
      let rest1 ← siftup ((r0 :: rrest).set 0 lastelt) 0
      .ok (r0, rest1)

/-- Dispatch order of the worker loop with no rate limiting in effect:
`_worker_thread` repeatedly does `self.download_queue.get()` and executes
the task, so the dispatch order is the sequence of `heappop` results
until the queue is empty.  `fuel` bounds the iterations. -/
def drainHeap : List Entry → ℕ → Except PyErr (List Entry)
  | [], _ => .ok []
  | _ :: _, 0 => .error .fuelOut
  | h, fuel + 1 => do
    let r ← heappop h
    let rest ← drainHeap r.2 fuel
    .ok (r.1 :: rest)

/-!
Retry mechanism (`src/utils/enhanced_downloader.py`,
`EnhancedDownloader.smart_retry_mechanism`).  The download function is
modelled by the outcome of its n-th invocation. -/

/-- Result of `smart_retry_mechanism`: the `success` flag and the `error`
message of the returned dict, if any. -/
structure RetryResult where
  success : Bool
  error : Option String
  deriving DecidableEq, Repr

/-- The `for attempt in range(max_retries)` loop of
`smart_retry_mechanism`, with `remaining` iterations left (`remaining =
max_retries - attempt`), carrying the current attempt index and the
number of invocations of `download_func` made so far.  A successful
result is returned at once; a failure result sleeps and continues; an
exception on the last attempt returns a max-retries error, otherwise
sleeps and continues; falling out of the loop returns
`"Max retries exceeded"`. -/
def smartRetryLoop (f : ℕ → DlOutcome) (maxRetries : ℕ) :
    ℕ → ℕ → ℕ → RetryResult × ℕ
  | 0, _, count => (⟨false, some "Max retries exceeded"⟩, count)
  | remaining + 1, attempt, count =>
    match f attempt with
    | .result true => (⟨true, Option.none⟩, count + 1)
    | .result false =>
        smartRetryLoop f maxRetries remaining (attempt + 1) (count + 1)
    | .raise =>
      if attempt = maxRetries - 1 then
        (⟨false, some "Max retries reached"⟩, count + 1)
      else smartRetryLoop f maxRetries remaining (attempt + 1) (count + 1)

/-- Embedding of `smart_retry_mechanism(download_func, max_retries)`:
returns the result dict and the total number of `download_func`
invocations. -/
def smartRetryMechanism (f : ℕ → DlOutcome) (maxRetries : ℕ) :
    RetryResult × ℕ :=
  smartRetryLoop f maxRetries maxRetries 0 0

/-!
Cancellation (`DownloadScheduler.cancel_download`). -/

/-- The scheduler state that `cancel_download` touches: the ids present
in `self.active_downloads` (tasks currently being executed by a worker)
and the entries of `self.download_queue` (still-scheduled tasks). -/
structure CancelState where
  active_downloads : List String
  queued : List Entry
  deriving DecidableEq, Repr

/-- Embedding of `DownloadScheduler.cancel_download(download_id)`: when
the id is an active download, delete its `active_downloads` entry and
return `True`; otherwise log and return `True` without touching the
queue (the source comments that removal from the `PriorityQueue` is left
to "a real implementation"). -/
def cancelDownload (st : CancelState) (downloadId : String) :
    Bool × CancelState :=
  if downloadId ∈ st.active_downloads then
    (true, { st with
        active_downloads := st.active_downloads.erase downloadId })
  else (true, st)

/-!
Batch execution (`DownloadScheduler.execute_downloads` and
`DownloadScheduler._execute_single_download`). -/

/-- Platforms registered in the `downloader_map` of
`_execute_single_download`. -/
def downloaderMapScheduler : List String :=
  ["youtube", "tiktok", "instagram", "reddit", "twitter"]

/-- Embedding of `_execute_single_download(download_task)`: returns
whether the produced result dict has `success == True` and whether a
downloader was invoked at all.  An unsupported platform returns the
`Unsupported platform` failure before any import or invocation; a raising
downloader is caught and becomes a failure result. -/
def executeSingleDownload (oracle : TaskDict → DlOutcome)
    (task : TaskDict) : Bool × Bool :=
  if task.platform ∈ downloaderMapScheduler then
    match oracle task with
    | .result b => (b, true)
    | .raise => (false, true)
  else (false, false)

/-- Association-list map of per-platform limiter entries
(`self.rate_limiters`). -/
abbrev LimiterMap := List (String × LimiterDict)

/-- Lookup of `self.rate_limiters[platform]`. -/
def limLookup (m : LimiterMap) (platform : String) : Option LimiterDict :=
  (m.find? (fun p => p.1 == platform)).map Prod.snd

/-- Write back a (possibly mutated) limiter entry; writing `Option.none`
is a no-op since the source only mutates entries that exist. -/
def limStore (m : LimiterMap) (platform : String) :
    Option LimiterDict → LimiterMap
  | Option.none => m
  | some l =>
    if m.any (fun p => p.1 == platform) then
      m.map (fun p => if p.1 == platform then (platform, l) else p)
    else m ++ [(platform, l)]

/-- Loop state of `execute_downloads`: the priority queue, the limiter
map, the three local counters, the list of tasks for which a downloader
was actually invoked, and the iteration index used to read the clock. -/
structure ExecState where
  heap : List Entry
  limiters : LimiterMap
  executed : ℕ
  successful : ℕ
  failed : ℕ
  invoked : List TaskDict
  iter : ℕ
  deriving Repr

/-- Embedding of the `while not self.download_queue.empty()` loop of
`execute_downloads`: pop the next entry, consult `_should_rate_limit`
(re-queueing the entry when it limits), otherwise run
`_execute_single_download`, bump the counters, and call
`_update_rate_limiter` only on success.  `clock i` is the wall time
during iteration `i` (the source reads `time.time()` a handful of times
per iteration; one timestamp per iteration keeps the model faithful at
the granularity the claims need).  `fuel` bounds the iterations. -/
def executeDownloadsLoop (oracle : TaskDict → DlOutcome) (clock : ℕ → ℚ) :
    ℕ → ExecState → Except PyErr ExecState
  | 0, st => if st.heap.isEmpty then .ok st else .error .fuelOut
  | fuel + 1, st =>
    if st.heap.isEmpty then .ok st
    else do
      let r ← heappop st.heap
      let (entry, heap1) := r
      let task := entry.2
      let now := clock st.iter
      let sr := shouldRateLimit (limLookup st.limiters task.platform) now
      let limiters1 := limStore st.limiters task.platform sr.2
      if sr.1 then do
        let heap2 ← heappush heap1 entry
        executeDownloadsLoop oracle clock fuel
          { st with heap := heap2, limiters := limiters1,
                    iter := st.iter + 1 }
      else
        let res := executeSingleDownload oracle task
        let limiters2 :=
          if res.1 then
            limStore limiters1 task.platform
              (updateRateLimiter (limLookup limiters1 task.platform) now)
          else limiters1
        executeDownloadsLoop oracle clock fuel
          { heap := heap1
            limiters := limiters2
            executed := st.executed + 1
            successful := st.successful + (if res.1 then 1 else 0)
            failed := st.failed + (if res.1 then 0 else 1)
            invoked := st.invoked ++ (if res.2 then [task] else [])
            iter := st.iter + 1 }

/-!
Platform detection and mixed-URL batch processing
(`BulkDownloader._detect_platform_from_url`,
`BulkDownloader.batch_process_mixed_urls`). -/

/-- Python substring test `sub in hay` on character lists. -/
def isSubList (sub : List Char) : List Char → Bool
  | [] => sub.isEmpty
  | c :: rest => sub.isPrefixOf (c :: rest) || isSubList sub rest

/-- Python `sub in hay` on strings. -/
def pyContains (hay sub : String) : Bool :=
  isSubList sub.data hay.data

/-- Python `url.lower()` (ASCII lowercasing, which covers every
recognised domain substring below). -/
def pyLower (s : String) : String :=
  String.mk (s.data.map Char.toLower)

/-- Embedding of `_detect_platform_from_url(url)`: lowercase the URL and
walk the if/elif chain of recognised domain substrings. -/
def detectPlatformFromUrl (url : String) : String :=
  let u := pyLower url
  if pyContains u "erome.com" then "erome"
  else if pyContains u "kwai.com" then "kwai"
  else if pyContains u "pornhub.com" then "pornhub"
  else if pyContains u "coomer.su" then "coomer"
  else if pyContains u "kemono.su" then "kemono"
  else if pyContains u "youtube.com" || pyContains u "youtu.be" then "youtube"
  else if pyContains u "tiktok.com" then "tiktok"
  else if pyContains u "instagram.com" then "instagram"
  else if pyContains u "reddit.com" then "reddit"
  else if pyContains u "redgifs.com" then "redgifs"
  else if pyContains u "twitter.com" || pyContains u "x.com" then "twitter"
  else "generic"

/-- The platform names `_detect_platform_from_url` can return. -/
def detectedPlatformNames : List String :=
  ["erome", "kwai", "pornhub", "coomer", "kemono", "youtube", "tiktok",
   "instagram", "reddit", "redgifs", "twitter", "generic"]

/-- The recognised domain substrings, in source order. -/
def recognizedDomainSubstrings : List String :=
  ["erome.com", "kwai.com", "pornhub.com", "coomer.su", "kemono.su",
   "youtube.com", "youtu.be", "tiktok.com", "instagram.com", "reddit.com",
   "redgifs.com", "twitter.com", "x.com"]

/-- Whether the per-URL handling in `batch_process_mixed_urls` reports
success for `url`.  The special platforms dispatch to their profile
helpers, whose reported success is given by `oracle`; every other
platform goes through `bulk_download_multiple_urls([url], platform, ...)`,
whose result dict has `success == True` exactly when the platform is in
its `downloader_map` (an unrecognised URL detects as `"generic"`, which
has no entry there, so the call fails before invoking any downloader). -/
def batchUrlOutcome (oracle : String → String → Bool) (options : Options)
    (url : String) : Bool :=
  let platform := detectPlatformFromUrl url
  if platform = "erome" then oracle platform url
  else if platform = "kwai" then oracle platform url
  else if platform = "pornhub" then oracle platform url
  else
    (bulkDownloadMultipleUrls Stats.init [url] platform options
      (fun u => if oracle platform u then .result true else .result false)
      ).2.1.success

/-- The per-iteration counters of the `results` dict of
`batch_process_mixed_urls`. -/
structure BatchCounts where
  processed : ℕ
  successful : ℕ
  failed : ℕ
  deriving DecidableEq, Repr

/-- One iteration of the URL loop of `batch_process_mixed_urls`: every
branch of the body catches its own exceptions, so each URL bumps
`processed` and exactly one of `successful` / `failed`. -/
def batchStep (oracle : String → String → Bool) (options : Options)
    (c : BatchCounts) (url : String) : BatchCounts :=
  if batchUrlOutcome oracle options url then
    { processed := c.processed + 1, successful := c.successful + 1,
      failed := c.failed }
  else
    { processed := c.processed + 1, successful := c.successful,
      failed := c.failed + 1 }

/-- Embedding of `batch_process_mixed_urls(urls, options)`: the loop
never lets an exception escape, so afterwards the function returns
`{'success': True, **results}`. -/
def batchProcessMixedUrls (oracle : String → String → Bool)
    (options : Options) (urls : List String) : Bool × BatchCounts :=
  (true, urls.foldl (batchStep oracle options) ⟨0, 0, 0⟩)

/-!
Helper lemmas shared by the claim theorems. -/

/-- Counting a predicate and its negation over a list exhausts it. -/
theorem countP_add_countP_not (p : α → Bool) (l : List α) :
    l.countP p + l.countP (fun a => !p a) = l.length := by
  induction l with
  | nil => rfl
  | cons x xs ih =>
    by_cases h : p x = true <;>
      simp [List.countP_cons, h, ← ih] <;> omega

/-- The always-failing run of the `smart_retry_mechanism` loop: with a
download function that always returns a failure result, the loop uses up
all remaining attempts, invoking the function once per attempt. -/
theorem smartRetryLoop_alwaysFail (f : ℕ → DlOutcome) (maxRetries : ℕ)
    (hf : ∀ n, f n = DlOutcome.result false) :
    ∀ remaining attempt count, smartRetryLoop f maxRetries remaining attempt count =
      (⟨false, some "Max retries exceeded"⟩, count + remaining) := by
  intro remaining
  induction remaining with
  | zero => intro attempt count; rfl
  | succ n ih =>
    intro attempt count
    simp only [smartRetryLoop, hf attempt, ih (attempt + 1) (count + 1)]
    congr 1
    omega

/-!
Claim C4.  The claim states that with `maxRetries = 3` an always-failing
downloader is invoked exactly 4 times (initial attempt plus 3 retries).
In `smart_retry_mechanism` the loop is `for attempt in range(max_retries)`,
so an always-failing `download_func` is invoked exactly `max_retries`
times — 3 times for `maxRetries = 3`, not 4 — before the terminal
failure is returned.  (`DownloadScheduler._execute_download`, the other
cited execution path, performs no retries at all: its downloader call is
commented out and replaced by a simulated success.) -/

/-- Claim C4, counterexample: with `maxRetries = 3` and a downloader stub
that always returns failure, `smart_retry_mechanism` invokes the stub
exactly 3 times, not the 4 times the claim states, and then returns the
terminal failure result. -/
theorem retry_count_three_not_four :
    smartRetryMechanism (fun _ => DlOutcome.result false) 3 =
      (⟨false, some "Max retries exceeded"⟩, 3) ∧
    (smartRetryMechanism (fun _ => DlOutcome.result false) 3).2 ≠ 4 := by
  constructor <;> decide

/-- Claim C4 (amended): for every retry bound, a downloader that always
reports failure is invoked exactly `maxRetries` times (the loop counts
the initial attempt against the bound, so there is no extra initial
invocation), after which the terminal failure result is returned; in
particular the loop always terminates and never stops earlier. -/
theorem retry_bound_amended (f : ℕ → DlOutcome) (maxRetries : ℕ)
    (hf : ∀ n, f n = DlOutcome.result false) :
    smartRetryMechanism f maxRetries =
      (⟨false, some "Max retries exceeded"⟩, maxRetries) := by
  have h := smartRetryLoop_alwaysFail f maxRetries hf maxRetries 0 0
  simpa [smartRetryMechanism] using h

/-- Claim C4, witness: the amended theorem evaluated at `maxRetries = 3`
with the constantly failing stub. -/
theorem retry_bound_amended_witness :
    smartRetryMechanism (fun _ => DlOutcome.result false) 3 =
      (⟨false, some "Max retries exceeded"⟩, 3) :=
  retry_bound_amended (fun _ => DlOutcome.result false) 3 (fun _ => rfl)

/-!
Claim C6.  `cancel_download` returns `True` for every id: it deletes the
`active_downloads` entry when the task is already running, and merely
logs when the task is still queued — the entry stays in the
`PriorityQueue` and its downloader will still be invoked (the source
comments that queue removal is deferred to "a real implementation"). -/

/-- Claim C6: evaluation of `cancel_download` at the failing inputs.  A
still-scheduled task ("reddit_100_17", only in the queue) yields `True`
with the queue untouched, so its downloader is still invoked later —
the claim requires the task to be removed; a running task
("tiktok_200_3", in `active_downloads`) also yields `True` and has its
active entry deleted — the claim requires `False` with no state
change. -/
theorem cancelDownload_stub_behavior :
    cancelDownload
        ⟨[], [((5 : ℤ), ⟨"reddit_100_17", "https://reddit.com/r/pics", "reddit"⟩)]⟩
        "reddit_100_17" =
      (true, ⟨[], [((5 : ℤ), ⟨"reddit_100_17", "https://reddit.com/r/pics", "reddit"⟩)]⟩) ∧
    cancelDownload ⟨["tiktok_200_3"], []⟩ "tiktok_200_3" = (true, ⟨[], []⟩) := by
  constructor <;> rfl

/-!
Claim C2.  In `bulk_download_multiple_urls` every submitted URL ends as
exactly one of completed/failed (the per-URL wrapper catches every
downloader exception) and `total_requested` is bumped by the batch size,
so the claimed identities hold there.  But in the single-collection
helpers such as `bulk_download_subreddit`, the statistics update sits
after the downloader call inside the `try` block: when the downloader
invocation raises, the handler increments `total_failed` without ever
incrementing `total_requested`, so `totalRequested == N` fails. -/

/-- Claim C2, counterexample: one submitted subreddit task whose
downloader raises reaches a terminal outcome with
`total_completed + total_failed = 1` but `total_requested = 0 ≠ 1`,
refuting `totalRequested == N` for `N = 1`. -/
theorem subreddit_raise_requested_mismatch :
    (bulkDownloadSubreddit Stats.init "funny" [] DlOutcome.raise 0).1 =
      ⟨0, 0, 1, 0⟩ ∧
    (bulkDownloadSubreddit Stats.init "funny" [] DlOutcome.raise 0).1.total_requested ≠ 1 := by
  constructor <;> decide

/-- Claim C2 (amended): for `bulk_download_multiple_urls` over a
registered platform, draining a batch of N URLs gives
`total_requested = N` and `total_completed + total_failed = N`, even
when downloader invocations raise; for a single-collection helper such
as `bulk_download_subreddit` (N = 1), `total_completed + total_failed = 1`
always holds, but `total_requested = 1` only when the downloader
invocation does not raise — a raising invocation increments
`total_failed` alone. -/
theorem stats_consistency_amended (urls : List String) (platform : String)
    (options : Options) (oracle : String → DlOutcome) (sub : String)
    (outcome : DlOutcome) (files : ℕ)
    (hp : platform ∈ downloaderMapPlatforms) :
    ((bulkDownloadMultipleUrls Stats.init urls platform options oracle).1.total_requested =
        urls.length ∧
      (bulkDownloadMultipleUrls Stats.init urls platform options oracle).1.total_completed +
        (bulkDownloadMultipleUrls Stats.init urls platform options oracle).1.total_failed =
        urls.length) ∧
    ((bulkDownloadSubreddit Stats.init sub options outcome files).1.total_completed +
        (bulkDownloadSubreddit Stats.init sub options outcome files).1.total_failed = 1 ∧
      (outcome ≠ DlOutcome.raise →
        (bulkDownloadSubreddit Stats.init sub options outcome files).1.total_requested = 1)) := by
  refine ⟨?_, ?_⟩
  · simp only [bulkDownloadMultipleUrls, if_pos hp, Stats.init]
    exact ⟨by simp, by simpa using countP_add_countP_not _ urls⟩
  · cases outcome with
    | raise => exact ⟨rfl, fun h => absurd rfl h⟩
    | result b => cases b <;> exact ⟨rfl, fun _ => rfl⟩

/-- Claim C2, witness: the amended theorem at a two-URL reddit batch
whose downloads fail, and a subreddit download that succeeds. -/
theorem stats_consistency_amended_witness :
    ((bulkDownloadMultipleUrls Stats.init ["u1", "u2"] "reddit" []
        (fun _ => DlOutcome.result false)).1.total_requested = 2 ∧
      (bulkDownloadMultipleUrls Stats.init ["u1", "u2"] "reddit" []
        (fun _ => DlOutcome.result false)).1.total_completed +
        (bulkDownloadMultipleUrls Stats.init ["u1", "u2"] "reddit" []
          (fun _ => DlOutcome.result false)).1.total_failed = 2) ∧
    ((bulkDownloadSubreddit Stats.init "pics" [] (DlOutcome.result true) 1).1.total_completed +
        (bulkDownloadSubreddit Stats.init "pics" [] (DlOutcome.result true) 1).1.total_failed = 1 ∧
      (DlOutcome.result true ≠ DlOutcome.raise →
        (bulkDownloadSubreddit Stats.init "pics" [] (DlOutcome.result true) 1).1.total_requested = 1)) := by
  have h := stats_consistency_amended ["u1", "u2"] "reddit" []
    (fun _ => DlOutcome.result false) "pics" (DlOutcome.result true) 1 (by decide)
  simpa using h

/-!
Claim C9.  The orchestration helpers do not pass the caller's options
through verbatim: `bulk_download_subreddit` copies the bag and overrides
`limit` to 0, and `bulk_download_coomer_user` additionally reads the
caller's `service` key.  Only `bulk_download_multiple_urls` hands the
bag to each downloader unchanged. -/

/-- Reading a dict headed by one entry. -/
theorem dictGet_cons (p : String × PyVal) (d : Options) (k : String) :
    dictGet (p :: d) k = if p.1 = k then some p.2 else dictGet d k := by
  by_cases h : p.1 = k
  · simp [dictGet, List.find?_cons_of_pos, h]
  · simp [dictGet, List.find?_cons_of_neg, h]

/-- Replacing the value under `k` in place: reading back `k`. -/
theorem dictGet_mapSet_same (d : Options) (k : String) (v : PyVal)
    (h : d.any (fun p => p.1 == k) = true) :
    dictGet (d.map (fun p => if p.1 == k then (k, v) else p)) k = some v := by
  induction d with
  | nil => simp at h
  | cons p rest ih =>
    by_cases hp : p.1 = k
    · simp [dictGet_cons, hp]
    · simp only [List.any_cons, Bool.or_eq_true, beq_iff_eq, hp, false_or] at h
      simpa [dictGet_cons, hp] using ih (by simpa using h)

/-- Replacing the value under `k` in place: reading any other key. -/
theorem dictGet_mapSet_other (d : Options) (k k' : String) (v : PyVal)
    (hk : k' ≠ k) :
    dictGet (d.map (fun p => if p.1 == k then (k, v) else p)) k' =
      dictGet d k' := by
  induction d with
  | nil => rfl
  | cons p rest ih =>
    simp only [List.map_cons]
    rw [dictGet_cons, dictGet_cons]
    by_cases hp : p.1 = k
    · simp only [hp, beq_self_eq_true, if_true]
      rw [if_neg (Ne.symm hk), if_neg (Ne.symm hk)]
      exact ih
    · have hb : (p.1 == k) = false := by simpa using hp
      simp only [hb, Bool.false_eq_true, if_false]
      by_cases hp' : p.1 = k'
      · simp [hp']
      · rw [if_neg hp', if_neg hp']
        exact ih

/-- Appending a fresh entry `(k, v)`: reading back `k`. -/
theorem dictGet_appendSet_same (d : Options) (k : String) (v : PyVal)
    (h : d.any (fun p => p.1 == k) = false) :
    dictGet (d ++ [(k, v)]) k = some v := by
  induction d with
  | nil => simp [dictGet_cons]
  | cons p rest ih =>
    rw [List.any_cons, Bool.or_eq_false_iff] at h
    have hp : ¬p.1 = k := by simpa using h.1
    rw [List.cons_append, dictGet_cons, if_neg hp]
    exact ih h.2

/-- Appending a fresh entry `(k, v)`: reading any other key. -/
theorem dictGet_appendSet_other (d : Options) (k k' : String) (v : PyVal)
    (hk : k' ≠ k) :
    dictGet (d ++ [(k, v)]) k' = dictGet d k' := by
  induction d with
  | nil => simp [dictGet, List.find?_cons_of_neg, Ne.symm hk]
  | cons p rest ih =>
    by_cases hp : p.1 = k'
    · simp [dictGet_cons, hp]
    · simpa [dictGet_cons, hp] using ih

/-- Reading a dict after `d[k] = v` yields `v` at `k`. -/
theorem dictGet_dictSet_same (d : Options) (k : String) (v : PyVal) :
    dictGet (dictSet d k v) k = some v := by
  unfold dictSet
  by_cases h : d.any (fun p => p.1 == k)
  · rw [if_pos h]; exact dictGet_mapSet_same d k v h
  · rw [if_neg h]
    exact dictGet_appendSet_same d k v (by rwa [Bool.not_eq_true] at h)

/-- Reading a dict after `d[k] = v` at any other key is unchanged. -/
theorem dictGet_dictSet_other (d : Options) (k k' : String) (v : PyVal)
    (hk : k' ≠ k) :
    dictGet (dictSet d k v) k' = dictGet d k' := by
  unfold dictSet
  by_cases h : d.any (fun p => p.1 == k)
  · rw [if_pos h]; exact dictGet_mapSet_other d k k' v hk
  · rw [if_neg h]; exact dictGet_appendSet_other d k k' v hk

/-- Claim C9, counterexample: submitting `{'limit': 25}` to
`bulk_download_subreddit`, the Reddit downloader receives a bag whose
`limit` entry is `0`, not the caller's `25` — the options bag is not
passed through verbatim. -/
theorem options_limit_overridden :
    dictGet (bulkDownloadSubreddit Stats.init "funny" [("limit", PyVal.int 25)]
        (DlOutcome.result true) 0).2.2.options "limit" = some (PyVal.int 0) ∧
    dictGet [("limit", PyVal.int 25)] "limit" = some (PyVal.int 25) ∧
    some (PyVal.int 0) ≠ some (PyVal.int 25) := by
  refine ⟨by decide, by decide, by decide⟩

/-- Claim C9 (amended): `bulk_download_subreddit` passes the caller's
options through except that `limit` is overridden to `0` (every other
key is preserved verbatim); `bulk_download_coomer_user` does the same
`limit` override and additionally reads the caller's `service` key when
the username is not a URL; only `bulk_download_multiple_urls` passes
the caller's bag to every downloader invocation verbatim. -/
theorem options_passthrough_amended (options : Options) (sub : String)
    (outcome : DlOutcome) (files : ℕ) (urls : List String)
    (platform : String) (oracle : String → DlOutcome) (user : String)
    (huser : pyStartsWith user "http" = false) :
    (dictGet (bulkDownloadSubreddit Stats.init sub options outcome files).2.2.options
        "limit" = some (PyVal.int 0) ∧
      ∀ k, k ≠ "limit" →
        dictGet (bulkDownloadSubreddit Stats.init sub options outcome files).2.2.options k =
          dictGet options k) ∧
    (∀ c ∈ (bulkDownloadMultipleUrls Stats.init urls platform options oracle).2.2,
      c.options = options) ∧
    (dictGet (bulkDownloadCoomerUserCall user options).options "limit" =
        some (PyVal.int 0) ∧
      (dictGet options "service" = some (PyVal.str "patreon") →
        (bulkDownloadCoomerUserCall user options).target =
          "https://coomer.su/patreon/user/" ++ user)) := by
  refine ⟨⟨?_, ?_⟩, ?_, ?_, ?_⟩
  · have : (bulkDownloadSubreddit Stats.init sub options outcome files).2.2.options =
        dictSet options "limit" (PyVal.int 0) := by
      cases outcome with
      | raise => rfl
      | result b => cases b <;> rfl
    rw [this, dictGet_dictSet_same]
  · intro k hk
    have : (bulkDownloadSubreddit Stats.init sub options outcome files).2.2.options =
        dictSet options "limit" (PyVal.int 0) := by
      cases outcome with
      | raise => rfl
      | result b => cases b <;> rfl
    rw [this, dictGet_dictSet_other _ _ _ _ hk]
  · intro c hc
    by_cases hp : platform ∈ downloaderMapPlatforms
    · simp only [bulkDownloadMultipleUrls, if_pos hp, List.mem_map] at hc
      obtain ⟨u, _, rfl⟩ := hc
      rfl
    · simp [bulkDownloadMultipleUrls, if_neg hp] at hc
  · simpa [bulkDownloadCoomerUserCall] using
      dictGet_dictSet_same options "limit" (PyVal.int 0)
  · intro hs
    simp only [bulkDownloadCoomerUserCall, huser, Bool.false_eq_true, if_false, hs]
    congr 1

/-- Claim C9, witness: the amended theorem at a concrete options bag for
a coomer user that is not given as a URL. -/
theorem options_passthrough_amended_witness :
    dictGet (bulkDownloadSubreddit Stats.init "funny"
        [("limit", PyVal.int 25), ("quality", PyVal.str "hd")]
        (DlOutcome.result true) 0).2.2.options "quality" =
      dictGet [("limit", PyVal.int 25), ("quality", PyVal.str "hd")] "quality" := by
  have h := options_passthrough_amended
    [("limit", PyVal.int 25), ("quality", PyVal.str "hd")] "funny"
    (DlOutcome.result true) 0 [] "reddit" (fun _ => DlOutcome.raise)
    "alice" (by decide)
  exact h.1.2 "quality" (by decide)

/-!
Claim C3.  With distinct priorities the heap dispatches the
lower-priority-number task first (the tuple comparison is settled on the
integer priorities).  With equal priorities, however, the tuple
comparison falls through to the task dicts, and `dict < dict` raises
`TypeError` — so the second `put` of an equal-priority task blows up
instead of queueing it, and no FIFO tie-break exists. -/

/-- Claim C3, counterexample: submitting two distinct tasks at the same
priority 5, the first `put` succeeds but the second raises `TypeError`
while sifting (the `(priority, dict)` tuples compare their dict
components), so equal-priority FIFO dispatch never happens. -/
theorem equal_priority_put_typeerror :
    heappush [] ((5 : ℤ), ⟨"reddit_100_1", "https://reddit.com/r/a", "reddit"⟩) =
      Except.ok [((5 : ℤ), ⟨"reddit_100_1", "https://reddit.com/r/a", "reddit"⟩)] ∧
    heappush [((5 : ℤ), ⟨"reddit_100_1", "https://reddit.com/r/a", "reddit"⟩)]
        ((5 : ℤ), ⟨"reddit_100_2", "https://reddit.com/r/b", "reddit"⟩) =
      Except.error PyErr.typeError := by
  constructor <;> rfl

/-- Claim C3 (amended): for two tasks with `A.priority < B.priority` and
no rate limiting in effect, A is dispatched before B whichever order
they are submitted in; equal-priority submission of distinct tasks is
not ordered FIFO but raises `TypeError` (see the counterexample). -/
theorem priority_dispatch_amended (pA pB : ℤ) (tA tB : TaskDict)
    (h : pA < pB) :
    ((heappush [] (pA, tA)).bind (fun h1 =>
        (heappush h1 (pB, tB)).bind (fun h2 => drainHeap h2 2)) =
      Except.ok [(pA, tA), (pB, tB)]) ∧
    ((heappush [] (pB, tB)).bind (fun h1 =>
        (heappush h1 (pA, tA)).bind (fun h2 => drainHeap h2 2)) =
      Except.ok [(pA, tA), (pB, tB)]) := by
  have hne : pB ≠ pA := (ne_of_lt h).symm
  have hba : entryLt (pB, tB) (pA, tA) = .ok false := by
    simp [entryLt, hne, not_lt.mpr (le_of_lt h)]
  have hab : entryLt (pA, tA) (pB, tB) = .ok true := by
    simp [entryLt, ne_of_lt h, h]
  constructor
  · show (heappush [(pA, tA)] (pB, tB)).bind (fun h2 => drainHeap h2 2) = _
    have hpush : heappush [(pA, tA)] (pB, tB) =
        .ok [(pA, tA), (pB, tB)] := by
      simp [heappush, siftdown, siftdownLoop, lget, hba, Bind.bind, Except.bind]
    rw [hpush]
    rfl
  · show (heappush [(pB, tB)] (pA, tA)).bind (fun h2 => drainHeap h2 2) = _
    have hpush : heappush [(pB, tB)] (pA, tA) =
        .ok [(pA, tA), (pB, tB)] := by
      simp [heappush, siftdown, siftdownLoop, lget, hab, Bind.bind, Except.bind]
    rw [hpush]
    rfl

/-- Claim C3, witness: the amended theorem at priorities 1 and 5 for two
concrete tasks. -/
theorem priority_dispatch_amended_witness :
    (heappush [] ((1 : ℤ), ⟨"a", "ua", "reddit"⟩)).bind (fun h1 =>
        (heappush h1 ((5 : ℤ), ⟨"b", "ub", "reddit"⟩)).bind
          (fun h2 => drainHeap h2 2)) =
      Except.ok [((1 : ℤ), ⟨"a", "ua", "reddit"⟩),
        ((5 : ℤ), ⟨"b", "ub", "reddit"⟩)] :=
  (priority_dispatch_amended 1 5 ⟨"a", "ua", "reddit"⟩ ⟨"b", "ub", "reddit"⟩
    (by decide)).1

/-- Draining an already-empty queue is a no-op for any remaining fuel. -/
theorem executeDownloadsLoop_nil (oracle : TaskDict → DlOutcome)
    (clock : ℕ → ℚ) (fuel : ℕ) (st : ExecState) (h : st.heap = []) :
    executeDownloadsLoop oracle clock fuel st = .ok st := by
  cases fuel <;> simp [executeDownloadsLoop, h]

/-!
Claim C8.  A task whose platform has no entry in the scheduler's
`downloader_map` gets the `Unsupported platform` failure result from
`_execute_single_download` before any downloader import or invocation;
`execute_downloads` counts it as one failure and never re-queues it (only
rate-limited tasks are put back).  `bulk_download_multiple_urls` likewise
fails fast on an unregistered platform without invoking anything. -/

/-- Claim C8: a task for an unregistered platform produces a failure
result with no downloader invocation and no retry.  The single-task run
of the `execute_downloads` loop (admitted by the rate limiter) drains the
queue with `executed = 1`, `failed = 1`, an empty invocation log, and no
re-queue, independently of the remaining fuel; and
`bulk_download_multiple_urls` on an unregistered platform returns the
unsupported-platform failure with untouched statistics and no
invocations. -/
theorem unknown_source_no_invoke_no_retry (task : TaskDict) (p : ℤ)
    (oracle : TaskDict → DlOutcome) (clock : ℕ → ℚ) (limiters : LimiterMap)
    (fuel : ℕ)
    (hplat : task.platform ∉ downloaderMapScheduler)
    (hnolimit : (shouldRateLimit (limLookup limiters task.platform) (clock 0)).1 = false) :
    executeSingleDownload oracle task = (false, false) ∧
    executeDownloadsLoop oracle clock (fuel + 1)
        ⟨[(p, task)], limiters, 0, 0, 0, [], 0⟩ =
      .ok ⟨[], limStore limiters task.platform
            (shouldRateLimit (limLookup limiters task.platform) (clock 0)).2,
          1, 0, 1, [], 1⟩ ∧
    (∀ (stats : Stats) (urls : List String) (options : Options)
        (oracle2 : String → DlOutcome),
      task.platform ∉ downloaderMapPlatforms →
      bulkDownloadMultipleUrls stats urls task.platform options oracle2 =
        (stats, ⟨false, 0, 0, some ("Unsupported platform: " ++ task.platform)⟩, [])) := by
  have hsingle : executeSingleDownload oracle task = (false, false) := by
    simp [executeSingleDownload, hplat]
  refine ⟨hsingle, ?_, ?_⟩
  · rw [executeDownloadsLoop]
    simp only [List.isEmpty_cons, Bool.false_eq_true, if_false]
    show Except.bind (heappop [(p, task)]) _ = _
    rw [show heappop [(p, task)] = .ok ((p, task), []) from rfl]
    simp only [Except.bind, hnolimit, Bool.false_eq_true, if_false, hsingle]
    exact executeDownloadsLoop_nil oracle clock fuel _ rfl
  · intro stats urls options oracle2 hp
    simp [bulkDownloadMultipleUrls, hp]

/-- Claim C8, witness: the theorem at a concrete "generic" task with an
empty limiter map. -/
theorem unknown_source_no_invoke_no_retry_witness :
    executeDownloadsLoop (fun _ => DlOutcome.result true) (fun _ => 0) 1
        ⟨[((5 : ℤ), ⟨"g1", "https://example.org/x", "generic"⟩)], [], 0, 0, 0, [], 0⟩ =
      .ok ⟨[], [], 1, 0, 1, [], 1⟩ := by
  have h := (unknown_source_no_invoke_no_retry
    ⟨"g1", "https://example.org/x", "generic"⟩ 5
    (fun _ => DlOutcome.result true) (fun _ => 0) [] 0
    (by decide) (by rfl)).2.1
  simpa using h

/-!
Claim C10.  `_detect_platform_from_url` is a total chain of substring
tests over the lowercased URL, returning `"generic"` exactly when no
recognised domain substring occurs; in `batch_process_mixed_urls` such a
URL flows into `bulk_download_multiple_urls([url], 'generic', ...)`,
which fails before invoking any downloader, so the URL is recorded as
failed and the loop carries on (the batch result stays `success=True`). -/

set_option maxHeartbeats 1600000 in
/-- Platform detection returns `"generic"` exactly when none of the
recognised domain substrings occurs in the lowercased URL. -/
theorem detect_eq_generic_iff (url : String) :
    detectPlatformFromUrl url = "generic" ↔
      (pyContains (pyLower url) "erome.com" = false ∧
       pyContains (pyLower url) "kwai.com" = false ∧
       pyContains (pyLower url) "pornhub.com" = false ∧
       pyContains (pyLower url) "coomer.su" = false ∧
       pyContains (pyLower url) "kemono.su" = false ∧
       pyContains (pyLower url) "youtube.com" = false ∧
       pyContains (pyLower url) "youtu.be" = false ∧
       pyContains (pyLower url) "tiktok.com" = false ∧
       pyContains (pyLower url) "instagram.com" = false ∧
       pyContains (pyLower url) "reddit.com" = false ∧
       pyContains (pyLower url) "redgifs.com" = false ∧
       pyContains (pyLower url) "twitter.com" = false ∧
       pyContains (pyLower url) "x.com" = false) := by
  simp only [detectPlatformFromUrl]
  split_ifs with h1 h2 h3 h4 h5 h6 h7 h8 h9 h10 h11 <;>
    simp_all [Bool.or_eq_true, not_or] <;>
    (intros; rcases (‹_ ∨ _›) with h | h <;> simp_all)

/-- Counting the outcomes of the `batch_process_mixed_urls` loop. -/
theorem batch_foldl_counts (oracle : String → String → Bool)
    (options : Options) (urls : List String) :
    ∀ c : BatchCounts, urls.foldl (batchStep oracle options) c =
      ⟨c.processed + urls.length,
       c.successful + urls.countP (fun u => batchUrlOutcome oracle options u),
       c.failed + urls.countP (fun u => !batchUrlOutcome oracle options u)⟩ := by
  induction urls with
  | nil => intro c; simp
  | cons u rest ih =>
    intro c
    rw [List.foldl_cons]
    by_cases h : batchUrlOutcome oracle options u = true
    · have hb : batchStep oracle options c u =
          ⟨c.processed + 1, c.successful + 1, c.failed⟩ := by
        simp [batchStep, h]
      rw [hb, ih]
      simp [List.countP_cons, h]
      try omega
    · have hf : batchUrlOutcome oracle options u = false := by
        rwa [Bool.not_eq_true] at h
      have hb : batchStep oracle options c u =
          ⟨c.processed + 1, c.successful, c.failed + 1⟩ := by
        simp [batchStep, hf]
      rw [hb, ih]
      simp [List.countP_cons, hf]
      try omega

set_option maxHeartbeats 1600000 in
/-- Claim C10: platform detection is total and deterministic with values
in a fixed name set, returns `"generic"` exactly when no recognised
domain substring occurs in the lowercased URL, and in
`batch_process_mixed_urls` every URL is processed (the batch never
aborts: `success = True` and `processed = N`), with the failure counter
counting exactly the per-URL failures — in particular every
`"generic"`-detected URL is recorded as failed, since the `"generic"`
platform has no `downloader_map` entry. -/
theorem platform_detection_total_generic :
    (∀ url, detectPlatformFromUrl url ∈ detectedPlatformNames) ∧
    (∀ url, detectPlatformFromUrl url = "generic" ↔
      ∀ s ∈ recognizedDomainSubstrings, pyContains (pyLower url) s = false) ∧
    (∀ (oracle : String → String → Bool) (options : Options)
        (urls : List String),
      batchProcessMixedUrls oracle options urls =
        (true, ⟨urls.length,
          urls.countP (fun u => batchUrlOutcome oracle options u),
          urls.countP (fun u => !batchUrlOutcome oracle options u)⟩)) ∧
    (∀ (oracle : String → String → Bool) (options : Options) (url : String),
      detectPlatformFromUrl url = "generic" →
      batchUrlOutcome oracle options url = false) := by
  refine ⟨?_, ?_, ?_, ?_⟩
  · intro url
    simp only [detectPlatformFromUrl]
    split_ifs <;> decide
  · intro url
    rw [detect_eq_generic_iff]
    simp [recognizedDomainSubstrings, List.forall_mem_cons, and_assoc]
  · intro oracle options urls
    unfold batchProcessMixedUrls
    rw [batch_foldl_counts]
    simp
  · intro oracle options url h
    simp [batchUrlOutcome, h, bulkDownloadMultipleUrls, downloaderMapPlatforms]

/-- Claim C10, witness: an unrecognised URL detects as `"generic"` and is
recorded as failed by the batch step. -/
theorem platform_detection_total_generic_witness :
    batchUrlOutcome (fun _ _ => true) [] "https://example.org/a" = false :=
  platform_detection_total_generic.2.2.2 (fun _ _ => true) []
    "https://example.org/a" (by decide)

/-- Evaluation of the body of `_check_rate_limit` on a limiter entry
carrying that function's own keys (`minute_start`,
`requests_this_minute`, `last_request` all present). -/
theorem checkRateLimitWith_eval (lims : PlatformLimits) (l : LimiterDict)
    (ms : ℚ) (rtm : ℤ) (lr : ℚ) (now : ℚ)
    (hms : l.minute_start = some ms)
    (hrtm : l.requests_this_minute = some rtm)
    (hlr : l.last_request = some lr) :
    checkRateLimitWith lims (some l) now =
      (if (if now - ms ≥ 60 then 0 else rtm) ≥ lims.requests_per_minute then
        (false, some (if now - ms ≥ 60 then
          { l with requests_this_minute := some 0, minute_start := some now }
          else l))
      else if now - lr < lims.min_delay then
        (false, some (if now - ms ≥ 60 then
          { l with requests_this_minute := some 0, minute_start := some now }
          else l))
      else
        (true, some { (if now - ms ≥ 60 then
            { l with requests_this_minute := some 0, minute_start := some now }
            else l) with
          last_request := some now,
          requests_this_minute := some ((if now - ms ≥ 60 then 0 else rtm) + 1) })) := by
  unfold checkRateLimitWith
  by_cases hr : now - ms ≥ 60 <;>
    simp only [hms, hr, if_true, if_false, hrtm, hlr]

/-!
Claim C1.  The claimed equivalence (admit exactly when, after the window
reset, `requestsThisWindow < maxPerWindow` and
`now - lastDispatch >= minSpacingSeconds`) holds for `_check_rate_limit`
on its own state schema.  But the batch path's admission check
`_should_rate_limit` — whose `False` result admits a dispatch in
`execute_downloads` — never looks at `last_request` at all: it admits
whenever the window counter is below the bound, even with zero elapsed
time since the previous dispatch. -/

/-- Claim C1, counterexample: a limiter state whose `last_request` equals
`now` (zero spacing, violating every positive `minSpacingSeconds`, in
particular the 1-second default) and whose window counter is below the
bound: `_should_rate_limit` returns `False`, i.e. the dispatch is
admitted, refuting "a call for which either condition fails returns
false". -/
theorem shouldRateLimit_admits_despite_spacing :
    shouldRateLimit
        (some ⟨some 100, some 1, some 100, some 30, Option.none, Option.none⟩) 100 =
      (false, some ⟨some 100, some 1, some 100, some 30, Option.none, Option.none⟩) ∧
    ¬((100 : ℚ) - 100 ≥ 1) := by
  constructor
  · norm_num [shouldRateLimit]
  · norm_num

/-- Claim C1 (amended): on a limiter entry carrying its own keys,
`_check_rate_limit` admits exactly when, after the window reset, the
window counter is below the platform bound and the elapsed time since
`last_request` is at least the minimum delay; `_should_rate_limit`
(whose `False` return admits a dispatch in `execute_downloads`, on the
key schema written by `schedule_download`) admits exactly when the
post-reset window counter is below the bound, with no spacing condition
at all; and `_check_rate_limit` on an entry missing its `minute_start`
key (e.g. one initialised by `schedule_download`) swallows the
`KeyError` and admits unconditionally. -/
theorem rate_admission_amended (lims : PlatformLimits) (l : LimiterDict)
    (ms lr : ℚ) (rtm : ℤ) (now : ℚ)
    (hms : l.minute_start = some ms)
    (hrtm : l.requests_this_minute = some rtm)
    (hlr : l.last_request = some lr)
    (l' : LimiterDict) (ws : ℚ) (rc mx : ℤ)
    (hws : l'.window_start = some ws)
    (hrc : l'.request_count = some rc)
    (hmx : l'.max_requests_per_minute = some mx) :
    ((checkRateLimitWith lims (some l) now).1 = true ↔
      ((if now - ms ≥ 60 then 0 else rtm) < lims.requests_per_minute ∧
        now - lr ≥ lims.min_delay)) ∧
    ((shouldRateLimit (some l') now).1 = false ↔
      (if now - ws ≥ 60 then 0 else rc) < mx) ∧
    (∀ l'' : LimiterDict, l''.minute_start = Option.none →
      checkRateLimitWith lims (some l'') now = (true, some l'')) := by
  refine ⟨?_, ?_, ?_⟩
  · rw [checkRateLimitWith_eval lims l ms rtm lr now hms hrtm hlr]
    by_cases hr : now - ms ≥ 60 <;>
      simp only [hr, if_true, if_false] <;>
      split_ifs with h2 h3 <;>
      simp only [false_iff, true_iff, not_and, not_le, not_lt] <;>
      first
        | (intro hx; omega)
        | (intro hx; linarith)
        | exact ⟨by omega, by linarith⟩
  · unfold shouldRateLimit
    by_cases hr : now - ws ≥ 60 <;>
      simp only [hws, hr, if_true, if_false, hrc, hmx] <;>
      simp [decide_eq_false_iff_not]
  · intro l'' h
    unfold checkRateLimitWith
    simp only [h]

/-- Claim C1, witness: the amended theorem at concrete limiter entries —
a check-schema entry that admits at `now = 55`, and a schedule-schema
entry that `_should_rate_limit` admits. -/
theorem rate_admission_amended_witness :
    (checkRateLimitWith ⟨30, 1⟩
        (some ⟨some 50, Option.none, Option.none, Option.none, some 2, some 10⟩) 55).1 = true ∧
    (shouldRateLimit
        (some ⟨some 0, some 3, some 7, some 30, Option.none, Option.none⟩) 55).1 = false := by
  have h := rate_admission_amended ⟨30, 1⟩
    ⟨some 50, Option.none, Option.none, Option.none, some 2, some 10⟩
    10 50 2 55 rfl rfl rfl
    ⟨some 0, some 3, some 7, some 30, Option.none, Option.none⟩
    7 3 30 rfl rfl rfl
  constructor
  · exact h.1.mpr (by norm_num)
  · exact h.2.1.mpr (by norm_num)

/-!
Claim C7.  `_check_rate_limit` does mutate exactly when it admits (on its
own key schema).  But in the `execute_downloads` path the admission check
is `_should_rate_limit`, which never consumes budget — the counter is
incremented by `_update_rate_limiter` only after a *successful* download,
so an admitted dispatch whose download fails consumes nothing, and
`lastDispatch` is never set at admission time. -/

/-- The `_should_rate_limit` call only ever applies the window reset to
the limiter entry: it never increments the counter and never touches
`last_request`, whatever it returns. -/
theorem shouldRateLimit_state (l : LimiterDict) (now : ℚ) :
    (shouldRateLimit (some l) now).2 = some (resetShould l now) := by
  unfold shouldRateLimit resetShould
  rcases hws : l.window_start with _ | ws
  · simp [hws]
  · simp only [hws]
    by_cases hr : now - ws ≥ 60
    · simp only [hr, if_true]
      rcases l.max_requests_per_minute with _ | mx <;> rfl
    · simp only [hr, if_false]
      rcases hrc : l.request_count with _ | rc <;>
        rcases hmx : l.max_requests_per_minute with _ | mx <;>
        simp [hrc, hmx]

/-- Claim C7 (amended): `_check_rate_limit` (on its own key schema)
mutates the limiter exactly when it returns true — on true it sets
`last_request := now` and increments the post-reset counter, on false it
leaves the entry unchanged apart from the window reset; the
`execute_downloads` admission check `_should_rate_limit` never mutates
beyond the window reset (admission there consumes no budget); and budget
is consumed only by `_update_rate_limiter`, which increments the counter
by exactly one and sets `last_request` — it is called only after a
successful download. -/
theorem rate_limiter_frame_amended (lims : PlatformLimits)
    (l : LimiterDict) (ms lr : ℚ) (rtm : ℤ) (now : ℚ)
    (hms : l.minute_start = some ms)
    (hrtm : l.requests_this_minute = some rtm)
    (hlr : l.last_request = some lr) :
    (((checkRateLimitWith lims (some l) now).1 = true →
      (checkRateLimitWith lims (some l) now).2 =
        some { (if now - ms ≥ 60 then
            { l with requests_this_minute := some 0, minute_start := some now }
            else l) with
          last_request := some now,
          requests_this_minute := some ((if now - ms ≥ 60 then 0 else rtm) + 1) }) ∧
     ((checkRateLimitWith lims (some l) now).1 = false →
      (checkRateLimitWith lims (some l) now).2 =
        some (if now - ms ≥ 60 then
          { l with requests_this_minute := some 0, minute_start := some now }
          else l))) ∧
    (∀ (l' : LimiterDict) (t : ℚ),
      (shouldRateLimit (some l') t).2 = some (resetShould l' t)) ∧
    (∀ (l' : LimiterDict) (rc : ℤ) (t : ℚ),
      l'.request_count = some rc →
      updateRateLimiter (some l') t =
        some { l' with request_count := some (rc + 1),
                       last_request := some t }) := by
  refine ⟨⟨?_, ?_⟩, fun l' t => shouldRateLimit_state l' t, ?_⟩
  · rw [checkRateLimitWith_eval lims l ms rtm lr now hms hrtm hlr]
    split_ifs with h2 h3 <;> simp
  · rw [checkRateLimitWith_eval lims l ms rtm lr now hms hrtm hlr]
    split_ifs with h2 h3 <;> simp
  · intro l' rc t hrc
    unfold updateRateLimiter
    simp [hrc]

/-- Claim C7, witness: the amended theorem at a concrete entry for which
`_check_rate_limit` admits at `now = 55` and records the dispatch. -/
theorem rate_limiter_frame_amended_witness :
    (checkRateLimitWith ⟨30, 1⟩
        (some ⟨some 50, Option.none, Option.none, Option.none, some 2, some 10⟩) 55).2 =
      some ⟨some 55, Option.none, Option.none, Option.none, some 3, some 10⟩ := by
  have h := (rate_limiter_frame_amended ⟨30, 1⟩
    ⟨some 50, Option.none, Option.none, Option.none, some 2, some 10⟩
    10 50 2 55 rfl rfl rfl).1.1
  have hadm : (checkRateLimitWith ⟨30, 1⟩
      (some ⟨some 50, Option.none, Option.none, Option.none, some 2, some 10⟩) 55).1 = true := by
    rw [checkRateLimitWith_eval ⟨30, 1⟩
      ⟨some 50, Option.none, Option.none, Option.none, some 2, some 10⟩
      10 2 50 55 rfl rfl rfl]
    norm_num
  have h2 := h hadm
  rw [h2]
  norm_num

/-- One `execute_downloads` iteration on a single-task queue whose
dispatch is admitted and whose download is a failure: the task is
counted as one executed failure, is not re-queued, and the limiter map
receives only whatever `_should_rate_limit` itself did to the entry
(`_update_rate_limiter` is not called on failure). -/
theorem executeDownloadsLoop_step_fail (task : TaskDict) (p : ℤ)
    (oracle : TaskDict → DlOutcome) (clock : ℕ → ℚ) (limiters : LimiterMap)
    (fuel : ℕ)
    (hfail : executeSingleDownload oracle task = (false, true))
    (hnolimit : (shouldRateLimit (limLookup limiters task.platform) (clock 0)).1 = false) :
    executeDownloadsLoop oracle clock (fuel + 1)
        ⟨[(p, task)], limiters, 0, 0, 0, [], 0⟩ =
      .ok ⟨[], limStore limiters task.platform
            (shouldRateLimit (limLookup limiters task.platform) (clock 0)).2,
          1, 0, 1, [task], 1⟩ := by
  rw [executeDownloadsLoop]
  simp only [List.isEmpty_cons, Bool.false_eq_true, if_false]
  show Except.bind (heappop [(p, task)]) _ = _
  rw [show heappop [(p, task)] = .ok ((p, task), []) from rfl]
  simp only [Except.bind, hnolimit, Bool.false_eq_true, if_false, hfail]
  exact executeDownloadsLoop_nil oracle clock fuel _ rfl

/-- Claim C7, counterexample: a full `execute_downloads` iteration in
which the dispatch is admitted (`_should_rate_limit` returns `False`),
the downloader is invoked and fails, and the limiter entry for the
platform is exactly what it was before — the admitted dispatch consumed
no budget and `lastDispatch` was never set, refuting "mutates the
limiter state exactly when it returns true". -/
theorem admission_without_budget_consumption :
    shouldRateLimit
        (some ⟨some 150, some 2, some 150, some 60, Option.none, Option.none⟩) 200 =
      (false, some ⟨some 150, some 2, some 150, some 60, Option.none, Option.none⟩) ∧
    executeDownloadsLoop (fun _ => DlOutcome.result false) (fun _ => 200) 2
        ⟨[((5 : ℤ), ⟨"reddit_1", "https://reddit.com/r/a", "reddit"⟩)],
         [("reddit", ⟨some 150, some 2, some 150, some 60, Option.none, Option.none⟩)],
         0, 0, 0, [], 0⟩ =
      .ok ⟨[],
        [("reddit", ⟨some 150, some 2, some 150, some 60, Option.none, Option.none⟩)],
        1, 0, 1, [⟨"reddit_1", "https://reddit.com/r/a", "reddit"⟩], 1⟩ := by
  have hsr : shouldRateLimit
      (some ⟨some 150, some 2, some 150, some 60, Option.none, Option.none⟩) 200 =
      (false, some ⟨some 150, some 2, some 150, some 60, Option.none, Option.none⟩) := by
    norm_num [shouldRateLimit]
  have hlook : limLookup
      [("reddit", ⟨some 150, some 2, some 150, some 60, Option.none, Option.none⟩)]
      "reddit" =
      some ⟨some 150, some 2, some 150, some 60, Option.none, Option.none⟩ := rfl
  refine ⟨hsr, ?_⟩
  have hstep := executeDownloadsLoop_step_fail
    ⟨"reddit_1", "https://reddit.com/r/a", "reddit"⟩ 5
    (fun _ => DlOutcome.result false) (fun _ => 200)
    [("reddit", ⟨some 150, some 2, some 150, some 60, Option.none, Option.none⟩)]
    1 rfl (by rw [show ((⟨"reddit_1", "https://reddit.com/r/a", "reddit"⟩ : TaskDict)).platform =
      "reddit" from rfl, hlook, hsr])
  rw [hstep]
  rw [show ((⟨"reddit_1", "https://reddit.com/r/a", "reddit"⟩ : TaskDict)).platform =
    "reddit" from rfl, hlook, hsr]
  rfl

/-!
Claim C5.  The limiter counts dispatches per *fixed* accounting window:
on reset it sets `minute_start := now` and zeroes the counter, so a burst
at the end of one window followed by a burst at the start of the next
puts up to `2 × maxPerWindow` dispatches inside one rolling 60-second
interval.  (The source has no way to configure `maxPerWindow = 5` — the
limits table is hard-coded — so the claim's configuration is read as the
platform-limits row the check uses, which `checkRateLimitWith`
abstracts.) -/

/-- Claim C5, counterexample: with `maxPerWindow = 5, minSpacing = 1s`, a
trace of calls at times 0, 55–59 and 60–64 admits ten dispatches, all at
times 55–64 — ten dispatches inside the rolling 60-second interval
starting at 55, twice the claimed bound of five (the window that began
at time 0 is reset at time 60, so the counter restarts mid-interval). -/
theorem rolling_window_burst :
    (admittedTimes ⟨5, 1⟩ Option.none
        [0, 55, 56, 57, 58, 59, 60, 61, 62, 63, 64]).1 =
      [55, 56, 57, 58, 59, 60, 61, 62, 63, 64] ∧
    (∀ t ∈ [(55 : ℚ), 56, 57, 58, 59, 60, 61, 62, 63, 64],
      55 ≤ t ∧ t - 55 < 60) ∧
    [(55 : ℚ), 56, 57, 58, 59, 60, 61, 62, 63, 64].length = 10 ∧
    ¬(10 ≤ 5) := by
  refine ⟨?_, ?_, by norm_num, by norm_num⟩
  · norm_num [admittedTimes, checkRateLimitWith, LimiterDict.initCheck]
  · intro t ht
    fin_cases ht <;> norm_num

/-- Claim C5 (amended): the limiter enforces the bound per fixed
accounting window, not per rolling window.  Starting from any limiter
entry (on `_check_rate_limit`'s key schema) whose counter is within the
bound, over any sequence of calls that stays inside the current fixed
window (each call time is less than 60 seconds after `minute_start`),
the number of admitted dispatches plus the starting counter never
exceeds `maxPerWindow`. -/
theorem fixed_window_bound_amended (lims : PlatformLimits) :
    ∀ (ts : List ℚ) (l : LimiterDict) (ms : ℚ) (rtm : ℤ) (lr : ℚ),
      l.minute_start = some ms → l.requests_this_minute = some rtm →
      l.last_request = some lr → rtm ≤ lims.requests_per_minute →
      (∀ t ∈ ts, t - ms < 60) →
      ((admittedTimes lims (some l) ts).1.length : ℤ) + rtm ≤
        lims.requests_per_minute := by
  intro ts
  induction ts with
  | nil =>
    intro l ms rtm lr hms hrtm hlr hb hts
    simpa [admittedTimes] using hb
  | cons t rest ih =>
    intro l ms rtm lr hms hrtm hlr hb hts
    have hnr : ¬(t - ms ≥ 60) := by
      have := hts t (List.mem_cons_self t rest)
      linarith
    have hrest : ∀ u ∈ rest, u - ms < 60 :=
      fun u hu => hts u (List.mem_cons_of_mem _ hu)
    rw [admittedTimes,
      checkRateLimitWith_eval lims l ms rtm lr t hms hrtm hlr]
    simp only [hnr, if_false]
    by_cases h2 : rtm ≥ lims.requests_per_minute
    · rw [if_pos h2]
      simpa using ih l ms rtm lr hms hrtm hlr hb hrest
    · rw [if_neg h2]
      by_cases h3 : t - lr < lims.min_delay
      · rw [if_pos h3]
        simpa using ih l ms rtm lr hms hrtm hlr hb hrest
      · rw [if_neg h3]
        have hnext := ih
          { l with last_request := some t,
                   requests_this_minute := some (rtm + 1) }
          ms (rtm + 1) t hms rfl rfl (by omega) hrest
        rw [if_pos (show true = true from rfl)]
        push_cast [List.length_cons] at hnext ⊢
        omega

/-- Claim C5, witness: the amended theorem at a fresh check-schema entry
with two in-window call times. -/
theorem fixed_window_bound_amended_witness :
    ((admittedTimes ⟨5, 1⟩
        (some ⟨some 0, Option.none, Option.none, Option.none, some 0, some 0⟩)
        [10, 11]).1.length : ℤ) + 0 ≤ 5 := by
  have h := fixed_window_bound_amended ⟨5, 1⟩ [10, 11]
    ⟨some 0, Option.none, Option.none, Option.none, some 0, some 0⟩
    0 0 0 rfl rfl rfl (by norm_num)
    (by intro t ht; fin_cases ht <;> norm_num)
  exact h

end MediaMiner
